import Mathlib

/-!
Verification of the core event loop, file registry and syntax-tree arena of a
language-analysis server, shallowly embedded from the Rust sources
(`crates/ra_lsp_server/src/main_loop.rs`, `crates/ra_lsp_server/src/path_map.rs`,
`src/tree/mod.rs`). Pure functions are translated to Lean functions; the
stateful main loop becomes an explicit step function over a state record;
panics and fallible operations are made explicit in result types.
-/

set_option maxRecDepth 4096

/-! ## Path model

`std::path` components, as produced by `Path::components()`. `Component::Prefix`
(Windows drive or UNC specifier) is modelled by `drive`; it can only occur as
the first component of a well-formed path. -/

inductive PathComp where
  | drive (s : String)
  | rootDir
  | curDir
  | parentDir
  | normal (s : String)
deriving DecidableEq, Repr

/-- A filesystem path as its list of components. -/
abbrev FsPath := List PathComp

/-- Association-list lookup, first binding wins. Models lookup in
`im::HashMap`, where `insert` shadows any earlier binding for the key. -/
def alookup {α β : Type} [DecidableEq α] : List (α × β) → α → Option β
  | [], _ => none
  | (k, v) :: t, a => if k = a then some v else alookup t a

/-- `PathBuf::push` for one component: pushing an absolute component (the root
directory) replaces the buffer, anything else is appended. -/
def pathPush (ret : FsPath) : PathComp → FsPath
  | .rootDir => [PathComp.rootDir]
  | c => ret ++ [c]

/-- `PathBuf::pop`: truncate to the parent, a no-op when there is no parent
(the buffer is empty, a bare root or a bare drive specifier). -/
def pathPop (l : FsPath) : FsPath :=
  match l.getLast? with
  | some (.normal _) => l.dropLast
  | some .parentDir => l.dropLast
  | some .curDir => l.dropLast
  | _ => l

/-- The loop of `normalize` in `path_map.rs`: `RootDir` is pushed, `CurDir`
dropped, `ParentDir` pops, `Normal` is appended. A `Prefix` component past the
first position is `unreachable!` in the source (`Path::components()` never
yields one there), so that branch leaves the accumulator unchanged. -/
def normGo (ret : FsPath) : FsPath → FsPath
  | [] => ret
  | c :: cs =>
    match c with
    | .drive _ => normGo ret cs
    | .rootDir => normGo (pathPush ret .rootDir) cs
    | .curDir => normGo ret cs
    | .parentDir => normGo (pathPop ret) cs
    | .normal s => normGo (ret ++ [PathComp.normal s]) cs

/-- The `normalize` function from `path_map.rs` (the root name `normalize` is taken by Mathlib): a leading prefix component seeds the
accumulator, the remaining components are folded by `normGo`. -/
def normalizePath (path : FsPath) : FsPath :=
  match path with
  | .drive s :: rest => normGo [PathComp.drive s] rest
  | _ => normGo [] path

/-! ## File registry (`PathMap`, `crates/ra_lsp_server/src/path_map.rs`) -/

inductive Root where
  | workspace
  | lib
deriving DecidableEq, Repr

/-- The value `2 ^ 32`; `next_id` is a `u32` in the source, so incrementing it
wraps at this bound. -/
def u32 : Nat := 2 ^ 32

/-- `PathMap`: the three `im::HashMap`s are modelled as association lists with
first-binding-wins lookup. `Default` initialises `next_id` to `0`. -/
structure PathMap where
  next_id : Nat
  path2id : List (FsPath × Nat)
  id2path : List (Nat × FsPath)
  id2root : List (Nat × Root)
deriving DecidableEq, Repr

/-- `PathMap::default()`. -/
def PathMap.empty : PathMap := ⟨0, [], [], []⟩

/-- Private `PathMap::insert`: record the binding in all three maps. -/
def PathMap.insert (m : PathMap) (path : FsPath) (file_id : Nat) (root : Root) : PathMap :=
  { m with
    path2id := (path, file_id) :: m.path2id
    id2path := (file_id, path) :: m.id2path
    id2root := (file_id, root) :: m.id2root }

/-- Private `PathMap::new_file_id`: issue `FileId(next_id)` and increment the
`u32` counter. -/
def PathMap.new_file_id (m : PathMap) : Nat × PathMap :=
  (m.next_id, { m with next_id := (m.next_id + 1) % u32 })

/-- `PathMap::get_or_insert`: return the existing id for the path, or issue a
fresh id and insert; the boolean reports whether an insertion happened. -/
def PathMap.get_or_insert (m : PathMap) (path : FsPath) (root : Root) :
    (Bool × Nat) × PathMap :=
  match alookup m.path2id path with
  | some id => ((false, id), m)
  | none =>
    let idm := m.new_file_id
    ((true, idm.1), idm.2.insert path idm.1 root)

/-- `PathMap::get_id`. -/
def PathMap.get_id (m : PathMap) (path : FsPath) : Option Nat :=
  alookup m.path2id path

/-- `PathMap::get_path`; the source unwraps, so a missing id (a panic there)
is `none` here. -/
def PathMap.get_path (m : PathMap) (file_id : Nat) : Option FsPath :=
  alookup m.id2path file_id

/-- Run a sequence of `get_or_insert` calls, collecting each
`(inserted, FileId)` result in order. -/
def runIntern : PathMap → List (FsPath × Root) → PathMap × List (Bool × Nat)
  | m, [] => (m, [])
  | m, (p, r) :: cs =>
    let res := m.get_or_insert p r
    let rest := runIntern res.2 cs
    (rest.1, res.1 :: rest.2)

/-- The ids of the calls that actually inserted, in call order. -/
def freshIds (rs : List (Bool × Nat)) : List Nat :=
  (rs.filter (fun br => br.1)).map (fun br => br.2)

/-- The two directions of the bidirectional map agree: any binding in
`path2id` is mirrored in `id2path`. -/
def PathMap.Consistent (m : PathMap) : Prop :=
  ∀ (p : FsPath) (id : Nat), alookup m.path2id p = some id →
    alookup m.id2path id = some p

/-! ## Syntax tree arena (`src/tree/mod.rs`) -/

namespace SynTree

/-- `NodeData`: kind, text range and arena links, all by index. -/
structure NodeData where
  kind : Nat
  range : Nat × Nat
  parent : Option Nat
  first_child : Option Nat
  next_sibling : Option Nat
deriving DecidableEq, Repr

/-- `SyntaxErrorData`: the owning node index and the message. -/
structure SyntaxErrorData where
  node : Nat
  message : String
deriving DecidableEq, Repr

/-- `File`: the sealed arenas. -/
structure File where
  text : String
  nodes : List NodeData
  errors : List SyntaxErrorData
deriving DecidableEq, Repr

/-- Outcome of running code that may hit an out-of-bounds `Vec` index, which
panics in Rust. -/
inductive PanicOr (α : Type) where
  | panicMsg (msg : String)
  | ok (a : α)
deriving DecidableEq, Repr

/-- `SyntaxError::next`: guard `errors.len() == idx`, then build the candidate
at `idx + 1` and read `result.data().node` — an out-of-bounds read (hence a
panic) whenever `idx + 1` is past the end, because the guard compares against
`idx` instead of `idx + 1`. -/
def errNext (f : File) (idx : Nat) : PanicOr (Option Nat) :=
  if f.errors.length = idx then .ok none
  else
    match f.errors.get? (idx + 1), f.errors.get? idx with
    | some rd, some sd => if rd.node ≠ sd.node then .ok none else .ok (some (idx + 1))
    | _, _ => .panicMsg "index out of bounds"

/-- The `SyntaxErrors` iterator: yielding the error at `cur` eagerly computes
its successor via `errNext`, so a panic there surfaces before the element is
yielded. Fuel bounds the recursion; `errors.length + 1` always suffices. -/
def collectFrom (f : File) : Option Nat → Nat → PanicOr (List Nat)
  | none, _ => .ok []
  | some _, 0 => .ok []
  | some idx, fuel + 1 =>
    match errNext f idx with
    | .panicMsg m => .panicMsg m
    | .ok nxt =>
      match collectFrom f nxt fuel with
      | .panicMsg m => .panicMsg m
      | .ok rest => .ok (idx :: rest)

/-- `Node::SyntaxErrors`: position of the first error owned by the node seeds
the iterator. -/
def nodeSyntaxErrors (f : File) (n : Nat) : PanicOr (List Nat) :=
  collectFrom f (f.errors.findIdx? (fun e => e.node = n)) (f.errors.length + 1)

end SynTree

/-! ## Main loop (`crates/ra_lsp_server/src/main_loop.rs`)

The loop body of `main_loop_inner` is embedded as a step function over an
explicit state record. State owned by the main loop that is implemented in
crates of this repository outside `src/` (`ServerWorldState`, `ra_vfs`,
`main_loop/subscriptions.rs`, `gen_lsp_server`) is modelled from the spec and
marked as such below; everything else is translated from `main_loop.rs`. -/

namespace Loop

/-- LSP error code `ErrorCode::MethodNotFound`. -/
def methodNotFound : Int := -32601

/-- LSP error code `ErrorCode::RequestCancelled`. -/
def requestCancelled : Int := -32800

/-- LSP error code `ErrorCode::InternalError`. -/
def internalError : Int := -32603

/-- `RawResponse`: the response id plus either a success payload (no code) or
an error `{code, message}`. -/
structure RawResponse where
  id : Nat
  code : Option Int
  message : String
deriving DecidableEq, Repr

/-- `RawResponse::ok` (the payload itself is irrelevant to the claims). -/
def RawResponse.succeed (id : Nat) : RawResponse := ⟨id, none, ""⟩

/-- `RawResponse::err`. -/
def RawResponse.err (id : Nat) (code : Int) (message : String) : RawResponse :=
  ⟨id, some code, message⟩

/-- `RawRequest`: id and method; parameters are opaque to the control flow
modelled here (a `cast::<R>` succeeds exactly when the method matches). -/
structure RawRequest where
  id : Nat
  method : String
deriving DecidableEq, Repr

/-- `languageserver_types::NumberOrString`, the id carried by a `$/cancelRequest`
notification. -/
inductive NumberOrString where
  | num (n : Nat)
  | str (s : String)
deriving DecidableEq, Repr

/-- A URI, which either converts to a file path (`Url::to_file_path` succeeds)
or does not. -/
inductive Uri where
  | file (p : FsPath)
  | nonFile (s : String)
deriving DecidableEq, Repr

/-- `Url::to_file_path`, as an `Option`. -/
def Uri.toFilePath : Uri → Option FsPath
  | .file p => some p
  | .nonFile _ => none

/-- The client notifications `on_notification` casts for, in source order;
every other method falls into `other`. `didChange` carries the list of
content-change texts. -/
inductive Notification where
  | cancel (id : NumberOrString)
  | didOpen (uri : Uri) (text : String)
  | didChange (uri : Uri) (contentChanges : List String)
  | didClose (uri : Uri)
  | other (method : String)
deriving DecidableEq, Repr

/-- `RawMessage`: request, notification or response. -/
inductive RawMessage where
  | request (r : RawRequest)
  | notification (n : Notification)
  | response (r : RawResponse)
deriving DecidableEq, Repr

/-- Outbound notifications the loop can emit. -/
inductive OutNotification where
  | publishDiagnostics (uri : Uri) (diagnostics : List String)
  | internalFeedback (msg : String)
  | taskNotify (payload : String)
deriving DecidableEq, Repr

/-- Everything the loop body emits: messages to the client and tasks spawned
on the thread pool. -/
inductive Output where
  | response (r : RawResponse)
  | notification (n : OutNotification)
  | spawnHandler (id : Nat) (method : String)
  | spawnLibIndex (root : Nat)
  | spawnDiagnostics (subs : Finset Nat)
deriving DecidableEq

/-- The worker task type `Task`. -/
inductive ServerTask where
  | respond (r : RawResponse)
  | notify (payload : String)
deriving DecidableEq, Repr

/-- An opaque `VfsTask`; its contents are applied to the vfs off-model. -/
inductive VfsTask where
  | mkTask
deriving DecidableEq, Repr

/-- The four inbound event sources of `main_loop_inner`. A `lib` event carries
the `LibraryData` (identified here by its root). -/
inductive Event where
  | task (t : ServerTask)
  | vfs (v : VfsTask)
  | lib (root : Nat)
  | msg (m : RawMessage)
deriving DecidableEq

/-- Modelled from the spec: the virtual filesystem's view — a path-to-FileId
table and the overlay map (`ra_vfs` is not under `src/`). -/
structure VfsState where
  pathToId : List (FsPath × Nat)
  overlays : List (Nat × String)
deriving DecidableEq

/-- Replace any overlay for `id` with text `t`. -/
def setOverlay (ovs : List (Nat × String)) (id : Nat) (t : String) :
    List (Nat × String) :=
  (id, t) :: ovs.filter (fun kv => kv.1 ≠ id)

/-- Modelled from the spec: `Vfs::add_file_overlay` — resolve the path to a
`FileId` if it belongs to a known root, set the overlay, and report the id. -/
def addFileOverlay (v : VfsState) (p : FsPath) (t : String) :
    Option Nat × VfsState :=
  match alookup v.pathToId p with
  | some id => (some id, { v with overlays := setOverlay v.overlays id t })
  | none => (none, v)

/-- Modelled from the spec: `Vfs::change_file_overlay` — replace the overlay
text for the file at the path. -/
def changeFileOverlay (v : VfsState) (p : FsPath) (t : String) : VfsState :=
  match alookup v.pathToId p with
  | some id => { v with overlays := setOverlay v.overlays id t }
  | none => v

/-- Modelled from the spec: `Vfs::remove_file_overlay` — drop the overlay and
report the affected id, if there was one. -/
def removeFileOverlay (v : VfsState) (p : FsPath) : Option Nat × VfsState :=
  match alookup v.pathToId p with
  | some id =>
    if (alookup v.overlays id).isSome then
      (some id, { v with overlays := v.overlays.filter (fun kv => kv.1 ≠ id) })
    else (none, v)
  | none => (none, v)

/-- The state owned by the main loop: the pending-request set and the
subscriptions set (`main_loop.rs` / `subscriptions.rs`), plus the parts of
`ServerWorldState` the loop consults — the vfs, the outstanding-roots counter
`roots_to_scan`, and the queue of library bundles that `process_changes`
returns for indexing (the latter three modelled from the spec, as
`server_world.rs` is not under `src/`). -/
structure ServerState where
  pending : Finset Nat
  subs : Finset Nat
  vfs : VfsState
  rootsToScan : Nat
  pendingLibs : List Nat
deriving DecidableEq

/-- What one loop iteration can end in: continue with a new state, return
cleanly (shutdown), return with an error (the `?` propagations and `bail!`s),
or panic. -/
inductive StepResult where
  | next (s : ServerState) (outs : List Output)
  | exitOk (outs : List Output)
  | exitErr (msg : String) (outs : List Output)
  | panicked (msg : String) (outs : List Output)
deriving DecidableEq

/-- `feedback`: emit an `InternalFeedback` notification, only in internal
mode. -/
def feedbackOut (internalMode : Bool) (msg : String) : List Output :=
  if internalMode then [Output.notification (.internalFeedback msg)] else []

/-- `on_task`: a `Respond` task is forwarded only when its id is still
pending (and the id is removed); a `Notify` task is always forwarded. -/
def on_task (t : ServerTask) (pending : Finset Nat) : Finset Nat × List Output :=
  match t with
  | .respond r =>
    if r.id ∈ pending then (pending.erase r.id, [Output.response r])
    else (pending, [])
  | .notify p => (pending, [Output.notification (.taskNotify p)])

/-- Outcome of `on_notification`: `ok` with the new state and the messages
sent, `fatal` for an `Err` that propagates out of `main_loop_inner` via `?`,
or `panicked` for the `panic!` on string cancel ids. -/
inductive NotifOutcome where
  | ok (s : ServerState) (outs : List Output)
  | fatal (msg : String)
  | panicked (msg : String)
deriving DecidableEq

/-- `on_notification`, following the source's cast chain: `Cancel`,
`DidOpenTextDocument`, `DidChangeTextDocument`, `DidCloseTextDocument`, then a
log-only fallback. `content_changes.pop()` takes the last change; an empty
list is an error. Invalid URIs are errors. Both errors propagate via `?` in
`main_loop_inner`. -/
def on_notification (s : ServerState) (nt : Notification) : NotifOutcome :=
  match nt with
  | .cancel (.num id) =>
    if id ∈ s.pending then
      .ok { s with pending := s.pending.erase id }
        [Output.response (RawResponse.err id requestCancelled "canceled by client")]
    else .ok s []
  | .cancel (.str _) => .panicked "string id not supported"
  | .didOpen uri text =>
    match uri.toFilePath with
    | none => .fatal "invalid uri"
    | some path =>
      match addFileOverlay s.vfs path text with
      | (some fid, vfs') => .ok { s with vfs := vfs', subs := insert fid s.subs } []
      | (none, vfs') => .ok { s with vfs := vfs' } []
  | .didChange uri contentChanges =>
    match uri.toFilePath with
    | none => .fatal "invalid uri"
    | some path =>
      match contentChanges.getLast? with
      | none => .fatal "empty changes"
      | some text => .ok { s with vfs := changeFileOverlay s.vfs path text } []
  | .didClose uri =>
    match uri.toFilePath with
    | none => .fatal "invalid uri"
    | some path =>
      match removeFileOverlay s.vfs path with
      | (some fid, vfs') =>
        .ok { s with vfs := vfs', subs := s.subs.erase fid }
          [Output.notification (.publishDiagnostics uri [])]
      | (none, vfs') =>
        .ok { s with vfs := vfs' }
          [Output.notification (.publishDiagnostics uri [])]
  | .other _ => .ok s []

/-- The request kinds registered with the dispatcher, in the order of the
`.on::<R>` chain in `on_request`. The first two method strings are from
`req.rs` under `src/`; the rest are modelled from the spec's method-family
list, as their `req.rs` declarations are not under `src/`. -/
def registeredMethods : List String :=
  ["m/syntaxTree", "m/extendSelection", "m/findMatchingBrace", "m/joinLines",
   "m/onEnter", "textDocument/onTypeFormatting", "textDocument/documentSymbol",
   "workspace/symbol", "textDocument/definition", "m/parentModule",
   "m/runnables", "m/decorations", "textDocument/completion",
   "textDocument/codeAction", "textDocument/foldingRange",
   "textDocument/signatureHelp", "textDocument/hover",
   "textDocument/prepareRename", "textDocument/rename",
   "textDocument/references"]

/-- `PoolDispatcher`: the request still to be matched, the id captured on a
match, and the pool tasks spawned. -/
structure PoolDispatcher where
  req : Option RawRequest
  res : Option Nat
  outs : List Output
deriving DecidableEq

/-- `PoolDispatcher::on::<R>`: skip if a kind already matched; otherwise, if
the method matches, spawn the handler task and capture the id. -/
def pdOn (kind : String) (d : PoolDispatcher) : PoolDispatcher :=
  match d.req with
  | none => d
  | some r =>
    if r.method = kind then
      { req := none, res := some r.id,
        outs := d.outs ++ [Output.spawnHandler r.id kind] }
    else d

/-- The `.on` chain of `on_request`, folded over the registered kinds. -/
def dispatchAll (kinds : List String) (r : RawRequest) : PoolDispatcher :=
  kinds.foldl (fun d k => pdOn k d) { req := some r, res := none, outs := [] }

/-- Result of `on_request`: the id was captured and inserted into pending, the
insert assertion failed (panic — the handler task was already spawned), or no
kind matched and the request is handed back to the caller. -/
inductive OnReqResult where
  | handled (pending : Finset Nat) (outs : List Output)
  | dup (outs : List Output)
  | unknown
deriving DecidableEq

/-- `on_request`: run the dispatcher chain; on a match, `finish` yields the id
which is inserted into the pending set, with `assert!(inserted)` panicking on
a duplicate. (The `unreachable!` states of `finish` cannot arise: exactly one
of `req`/`res` is set.) -/
def on_request (pending : Finset Nat) (r : RawRequest) : OnReqResult :=
  let d := dispatchAll registeredMethods r
  match d.res with
  | some id =>
    if id ∈ pending then .dup d.outs
    else .handled (insert id pending) d.outs
  | none => .unknown

/-- Modelled from the spec: `ServerWorldState::add_lib` installs the library
bundle, completing one outstanding root. -/
def addLib (s : ServerState) (_rootId : Nat) : ServerState :=
  { s with rootsToScan := s.rootsToScan - 1 }

/-- The state after `state.process_changes()` has drained the queue of new
library bundles (modelled from the spec). -/
def tailState (s : ServerState) : ServerState := { s with pendingLibs := [] }

/-- The outputs of the shared tail of the loop body: indexing tasks for each
new library bundle, the *workspace loaded* feedback whenever
`roots_to_scan == 0`, and the diagnostics task when the event changed
state. -/
def tailOuts (internalMode : Bool) (s : ServerState) (stateChanged : Bool) :
    List Output :=
  s.pendingLibs.map Output.spawnLibIndex
    ++ (if s.rootsToScan = 0 then feedbackOut internalMode "workspace loaded" else [])
    ++ (if stateChanged then [Output.spawnDiagnostics s.subs] else [])

/-- The tail of every continuing loop iteration (`main_loop_inner` lines
185–208). -/
def stepTail (internalMode : Bool) (s : ServerState) (outs : List Output)
    (stateChanged : Bool) : StepResult :=
  .next (tailState s) (outs ++ tailOuts internalMode s stateChanged)

/-- One iteration of `main_loop_inner`'s `loop`, for a given selected event. -/
def step (internalMode : Bool) (s : ServerState) (e : Event) : StepResult :=
  match e with
  | .task t =>
    let po := on_task t s.pending
    stepTail internalMode { s with pending := po.1 } po.2 false
  | .vfs _ =>
    stepTail internalMode s [] true
  | .lib rootId =>
    stepTail internalMode (addLib s rootId) (feedbackOut internalMode "library loaded") false
  | .msg (.response _) =>
    stepTail internalMode s [] false
  | .msg (.request r) =>
    if r.method = "shutdown" then
      .exitOk [Output.response (RawResponse.succeed r.id)]
    else
      match on_request s.pending r with
      | .handled p' outs => stepTail internalMode { s with pending := p' } outs false
      | .dup outs => .panicked "duplicate request" outs
      | .unknown =>
        stepTail internalMode s
          [Output.response (RawResponse.err r.id methodNotFound "unknown request")] false
  | .msg (.notification nt) =>
    match on_notification s nt with
    | .ok s' outs => stepTail internalMode s' outs true
    | .fatal m => .exitErr m []
    | .panicked m => .panicked m []

/-- How a whole run ends. -/
inductive RunResult where
  | running (s : ServerState)
  | exitedOk
  | exitedErr (msg : String)
  | panickedWith (msg : String)
deriving DecidableEq

/-- Run the loop over a list of events, concatenating everything emitted. -/
def run (internalMode : Bool) : ServerState → List Event → RunResult × List Output
  | s, [] => (.running s, [])
  | s, e :: es =>
    match step internalMode s e with
    | .next s' outs =>
      let rest := run internalMode s' es
      (rest.1, outs ++ rest.2)
    | .exitOk outs => (.exitedOk, outs)
    | .exitErr m outs => (.exitedErr m, outs)
    | .panicked m outs => (.panickedWith m, outs)

/-- The id a client request event carries, if the event is one. -/
def eventReqId : Event → Option Nat
  | .msg (.request r) => some r.id
  | _ => none

/-- The ids of all client requests in an event list, in order. -/
def requestIds (evs : List Event) : List Nat := evs.filterMap eventReqId

/-- Count the responses addressed to id `n` among the outputs. -/
def countRespTo (n : Nat) (outs : List Output) : Nat :=
  (outs.filter (fun o =>
    match o with
    | .response r => decide (r.id = n)
    | _ => false)).length

/-- Count the `internalFeedback` notifications with payload `msg`. -/
def countFeedback (msg : String) (outs : List Output) : Nat :=
  (outs.filter (fun o => o = Output.notification (.internalFeedback msg))).length

end Loop

/-! ## Registry lemmas and claims C7, C8 -/

theorem get_or_insert_found (m : PathMap) (p : FsPath) (r : Root) (id : Nat)
    (h : alookup m.path2id p = some id) :
    m.get_or_insert p r = ((false, id), m) := by
  simp [PathMap.get_or_insert, h]

theorem runIntern_freshIds_range' :
    ∀ (cs : List (FsPath × Root)) (m : PathMap), m.next_id + cs.length < u32 →
      ∃ k, freshIds (runIntern m cs).2 = List.range' m.next_id k := by
  intro cs
  induction cs with
  | nil => exact fun m _ => ⟨0, rfl⟩
  | cons c cs ih =>
    rintro m h
    obtain ⟨p, r⟩ := c
    cases hpl : alookup m.path2id p with
    | some id =>
      obtain ⟨k, hk⟩ := ih m (by simp at h; omega)
      refine ⟨k, ?_⟩
      simpa [runIntern, PathMap.get_or_insert, hpl, freshIds, List.filter_cons] using hk
    | none =>
      have hlt : m.next_id + 1 < u32 := by simp at h; omega
      have hmod : (m.next_id + 1) % u32 = m.next_id + 1 := Nat.mod_eq_of_lt hlt
      have hnext : ((m.new_file_id.2).insert p m.new_file_id.1 r).next_id =
          m.next_id + 1 := by
        simp [PathMap.new_file_id, PathMap.insert, hmod]
      obtain ⟨k, hk⟩ :=
        ih ((m.new_file_id.2).insert p m.new_file_id.1 r)
          (by rw [hnext]; simp at h; omega)
      rw [hnext] at hk
      refine ⟨k + 1, ?_⟩
      rw [List.range'_succ]
      simp only [runIntern, PathMap.get_or_insert, hpl]
      simpa [freshIds, List.filter_cons, PathMap.new_file_id] using hk

/-- C7 (amended): the registry issues FileIds densely starting from 0 and
monotonically increasing without reuse — the ids of the fresh interns, in
order, are exactly `0, 1, 2, …` — and interning an already-present path
returns its existing id without issuing a new one and without changing the
map. -/
theorem c7_amended :
    (∀ cs : List (FsPath × Root), cs.length < u32 →
      freshIds (runIntern PathMap.empty cs).2 =
        List.range (freshIds (runIntern PathMap.empty cs).2).length)
  ∧ (∀ (m : PathMap) (p : FsPath) (r : Root) (id : Nat),
      alookup m.path2id p = some id →
      m.get_or_insert p r = ((false, id), m)) := by
  constructor
  · intro cs h
    obtain ⟨k, hk⟩ := runIntern_freshIds_range' cs PathMap.empty (by simpa [PathMap.empty] using h)
    rw [hk, List.length_range']
    exact (List.range_eq_range' k).symm
  · exact fun m p r id h => get_or_insert_found m p r id h

/-- C7 counterexample: the claim says ids are dense *from 1* and the n-th
distinct path receives id n; the very first path interned into a fresh
`PathMap` receives id 0, not 1. -/
theorem c7_counterexample :
    (PathMap.empty.get_or_insert [PathComp.rootDir, PathComp.normal "main.rs"]
        Root.workspace).1 = (true, 0)
  ∧ (PathMap.empty.get_or_insert [PathComp.rootDir, PathComp.normal "main.rs"]
        Root.workspace).1 ≠ (true, 1) := by
  decide

def c7paths : List (FsPath × Root) :=
  [([PathComp.rootDir, PathComp.normal "a"], Root.workspace),
   ([PathComp.rootDir, PathComp.normal "a"], Root.workspace),
   ([PathComp.rootDir, PathComp.normal "b"], Root.lib)]

theorem c7_witness :
    (freshIds (runIntern PathMap.empty c7paths).2 =
      List.range (freshIds (runIntern PathMap.empty c7paths).2).length)
  ∧ PathMap.get_or_insert ⟨1, [([PathComp.rootDir], 0)], [(0, [PathComp.rootDir])],
      [(0, Root.workspace)]⟩ [PathComp.rootDir] Root.lib =
      ((false, 0), ⟨1, [([PathComp.rootDir], 0)], [(0, [PathComp.rootDir])],
        [(0, Root.workspace)]⟩) :=
  ⟨c7_amended.1 c7paths (by decide), c7_amended.2 _ _ Root.lib 0 (by decide)⟩

def c8path : FsPath :=
  [PathComp.rootDir, PathComp.normal "a", PathComp.parentDir, PathComp.normal "b"]

/-- C8 counterexample: `get_or_insert` stores the path verbatim, so
`path(intern(p).id)` is `p` itself, not `normalize(p)`; on a path containing
`..` the two differ. -/
theorem c8_counterexample :
    ((PathMap.empty.get_or_insert c8path Root.workspace).2.get_path
      (PathMap.empty.get_or_insert c8path Root.workspace).1.2) = some c8path
  ∧ normalizePath c8path = [PathComp.rootDir, PathComp.normal "b"]
  ∧ some c8path ≠ some (normalizePath c8path) := by
  decide

/-- C8 (amended): interning `p` and then looking up the path of the returned
id yields `p` exactly as given — normalization is not applied on intern —
provided the registry's two maps agree. -/
theorem c8_amended (m : PathMap) (p : FsPath) (r : Root) (h : m.Consistent) :
    (m.get_or_insert p r).2.get_path (m.get_or_insert p r).1.2 = some p := by
  cases hpl : alookup m.path2id p with
  | some id =>
    simpa [PathMap.get_or_insert, hpl, PathMap.get_path] using h p id hpl
  | none =>
    simp [PathMap.get_or_insert, hpl, PathMap.get_path, PathMap.insert,
      PathMap.new_file_id, alookup]

theorem c8_witness :
    (PathMap.empty.get_or_insert [PathComp.rootDir, PathComp.normal "x"]
        Root.workspace).2.get_path
      (PathMap.empty.get_or_insert [PathComp.rootDir, PathComp.normal "x"]
        Root.workspace).1.2
      = some [PathComp.rootDir, PathComp.normal "x"] :=
  c8_amended PathMap.empty _ Root.workspace
    (fun p id h => by simp [PathMap.empty, alookup] at h)

/-! ## Claim C9 -/

def c9File : SynTree.File :=
  { text := "", nodes := [⟨0, (0, 0), none, none, none⟩],
    errors := [⟨0, "unexpected token"⟩] }

/-- C9: iterating the syntax errors of the node that owns the last error in
the `errors` arena panics with an out-of-bounds index, instead of yielding
that error and stopping — the guard in `SyntaxError::next` compares
`errors.len()` against the current index rather than the successor index. -/
theorem c9_code_bug :
    SynTree.nodeSyntaxErrors c9File 0 =
      SynTree.PanicOr.panicMsg "index out of bounds" := by
  decide

/-! ## Main-loop lemmas -/

namespace Loop

theorem countRespTo_append (n : Nat) (a b : List Output) :
    countRespTo n (a ++ b) = countRespTo n a + countRespTo n b := by
  simp [countRespTo, List.filter_append]

theorem countRespTo_single_resp (n : Nat) (r : RawResponse) :
    countRespTo n [Output.response r] = if r.id = n then 1 else 0 := by
  by_cases h : r.id = n <;> simp [countRespTo, h]

theorem countRespTo_map_lib (n : Nat) (l : List Nat) :
    countRespTo n (l.map Output.spawnLibIndex) = 0 := by
  induction l with
  | nil => rfl
  | cons a l ih => simp only [List.map_cons, countRespTo, List.filter_cons]; exact ih

theorem countRespTo_feedbackOut (n : Nat) (im : Bool) (msg : String) :
    countRespTo n (feedbackOut im msg) = 0 := by
  cases im <;> rfl

theorem countRespTo_tailOuts (n : Nat) (im : Bool) (s : ServerState) (c : Bool) :
    countRespTo n (tailOuts im s c) = 0 := by
  unfold tailOuts
  rw [countRespTo_append, countRespTo_append, countRespTo_map_lib]
  have h2 : countRespTo n
      (if s.rootsToScan = 0 then feedbackOut im "workspace loaded" else []) = 0 := by
    split
    · exact countRespTo_feedbackOut n im _
    · rfl
  have h3 : countRespTo n (if c then [Output.spawnDiagnostics s.subs] else []) = 0 := by
    cases c <;> rfl
  rw [h2, h3]

theorem mem_feedbackOut (im : Bool) (msg m2 : String)
    (h : Output.notification (.internalFeedback m2) ∈ feedbackOut im msg) :
    m2 = msg := by
  cases im <;> simp [feedbackOut] at h; exact h

theorem wsFeedback_mem_tailOuts (im : Bool) (s : ServerState) (c : Bool) :
    Output.notification (.internalFeedback "workspace loaded") ∈ tailOuts im s c
      ↔ (im = true ∧ s.rootsToScan = 0) := by
  by_cases hr : s.rootsToScan = 0 <;> cases im <;> cases c <;>
    simp [tailOuts, feedbackOut, hr]

theorem spawnDiag_mem_tailOuts (im : Bool) (s : ServerState) (c : Bool) :
    (∃ fs, Output.spawnDiagnostics fs ∈ tailOuts im s c) ↔ c = true := by
  by_cases hr : s.rootsToScan = 0 <;> cases im <;> cases c <;>
    simp [tailOuts, feedbackOut, hr]

theorem pdOn_none (k : String) (d : PoolDispatcher) (h : d.req = none) :
    pdOn k d = d := by
  simp [pdOn, h]

theorem foldl_pdOn_none (ks : List String) (d : PoolDispatcher) (h : d.req = none) :
    ks.foldl (fun d k => pdOn k d) d = d := by
  induction ks with
  | nil => rfl
  | cons k ks ih => rw [List.foldl_cons, pdOn_none k d h]; exact ih

theorem dispatchAll_spec (kinds : List String) (r : RawRequest) :
    dispatchAll kinds r =
      if r.method ∈ kinds then
        { req := none, res := some r.id, outs := [Output.spawnHandler r.id r.method] }
      else { req := some r, res := none, outs := [] } := by
  induction kinds with
  | nil => simp [dispatchAll]
  | cons k ks ih =>
    have hcons : dispatchAll (k :: ks) r =
        ks.foldl (fun d k => pdOn k d)
          (pdOn k { req := some r, res := none, outs := [] }) := rfl
    by_cases hk : r.method = k
    · have hpd : pdOn k { req := some r, res := none, outs := [] } =
          { req := none, res := some r.id, outs := [Output.spawnHandler r.id k] } := by
        simp [pdOn, hk]
      rw [hcons, hpd, foldl_pdOn_none ks _ rfl,
        if_pos (by rw [hk]; exact List.mem_cons_self k ks), hk]
    · have hpd : pdOn k { req := some r, res := none, outs := [] } =
          { req := some r, res := none, outs := [] } := by
        simp [pdOn, hk]
      rw [hcons, hpd,
        show ks.foldl (fun d k => pdOn k d)
          { req := some r, res := none, outs := [] } = dispatchAll ks r from rfl, ih]
      have hmem : (r.method ∈ k :: ks) ↔ (r.method ∈ ks) := by simp [List.mem_cons, hk]
      by_cases hm : r.method ∈ ks
      · rw [if_pos hm, if_pos (hmem.mpr hm)]
      · rw [if_neg hm, if_neg (fun hcon => hm (hmem.mp hcon))]

theorem on_request_spec (pending : Finset Nat) (r : RawRequest) :
    on_request pending r =
      if r.method ∈ registeredMethods then
        (if r.id ∈ pending then OnReqResult.dup [Output.spawnHandler r.id r.method]
         else OnReqResult.handled (insert r.id pending)
           [Output.spawnHandler r.id r.method])
      else OnReqResult.unknown := by
  unfold on_request
  rw [dispatchAll_spec]
  by_cases hm : r.method ∈ registeredMethods <;> simp [hm]

theorem on_notification_spec (s : ServerState) (nt : Notification)
    (s1 : ServerState) (outs : List Output) (h : on_notification s nt = .ok s1 outs) :
    ((∃ id, id ∈ s.pending
        ∧ s1 = { s with pending := s.pending.erase id }
        ∧ outs = [Output.response (RawResponse.err id requestCancelled "canceled by client")])
      ∨ (s1.pending = s.pending ∧ ∀ n, countRespTo n outs = 0))
    ∧ (∀ msg, Output.notification (.internalFeedback msg) ∉ outs)
    ∧ (∀ fs, Output.spawnDiagnostics fs ∉ outs) := by
  cases nt with
  | cancel ns =>
    cases ns with
    | num id =>
      by_cases hid : id ∈ s.pending
      · simp only [on_notification, if_pos hid, NotifOutcome.ok.injEq] at h
        obtain ⟨h1, h2⟩ := h
        subst h1; subst h2
        exact ⟨Or.inl ⟨id, hid, rfl, rfl⟩, by simp, by simp⟩
      · simp only [on_notification, if_neg hid, NotifOutcome.ok.injEq] at h
        obtain ⟨h1, h2⟩ := h
        subst h1; subst h2
        exact ⟨Or.inr ⟨rfl, fun n => rfl⟩, by simp, by simp⟩
    | str x => simp [on_notification] at h
  | didOpen uri text =>
    cases hu : uri.toFilePath with
    | none => simp [on_notification, hu] at h
    | some path =>
      rcases hv : addFileOverlay s.vfs path text with ⟨fid?, vfs'⟩
      cases fid? with
      | some fid =>
        simp only [on_notification, hu, hv, NotifOutcome.ok.injEq] at h
        obtain ⟨h1, h2⟩ := h
        subst h1; subst h2
        exact ⟨Or.inr ⟨rfl, fun n => rfl⟩, by simp, by simp⟩
      | none =>
        simp only [on_notification, hu, hv, NotifOutcome.ok.injEq] at h
        obtain ⟨h1, h2⟩ := h
        subst h1; subst h2
        exact ⟨Or.inr ⟨rfl, fun n => rfl⟩, by simp, by simp⟩
  | didChange uri contentChanges =>
    cases hu : uri.toFilePath with
    | none => simp [on_notification, hu] at h
    | some path =>
      cases hc : contentChanges.getLast? with
      | none => simp [on_notification, hu, hc] at h
      | some text =>
        simp only [on_notification, hu, hc, NotifOutcome.ok.injEq] at h
        obtain ⟨h1, h2⟩ := h
        subst h1; subst h2
        exact ⟨Or.inr ⟨rfl, fun n => rfl⟩, by simp, by simp⟩
  | didClose uri =>
    cases hu : uri.toFilePath with
    | none => simp [on_notification, hu] at h
    | some path =>
      rcases hv : removeFileOverlay s.vfs path with ⟨fid?, vfs'⟩
      cases fid? with
      | some fid =>
        simp only [on_notification, hu, hv, NotifOutcome.ok.injEq] at h
        obtain ⟨h1, h2⟩ := h
        subst h1; subst h2
        exact ⟨Or.inr ⟨rfl, fun n => rfl⟩, by simp, by simp⟩
      | none =>
        simp only [on_notification, hu, hv, NotifOutcome.ok.injEq] at h
        obtain ⟨h1, h2⟩ := h
        subst h1; subst h2
        exact ⟨Or.inr ⟨rfl, fun n => rfl⟩, by simp, by simp⟩
  | other m =>
    simp only [on_notification, NotifOutcome.ok.injEq] at h
    obtain ⟨h1, h2⟩ := h
    subst h1; subst h2
    exact ⟨Or.inr ⟨rfl, fun n => rfl⟩, by simp, by simp⟩

end Loop

namespace Loop

theorem step_next_cases (im : Bool) (s : ServerState) (e : Event) (s' : ServerState)
    (outs : List Output) (h : step im s e = .next s' outs) :
    ∃ (s1 : ServerState) (outs0 : List Output) (changed : Bool),
      s' = tailState s1
      ∧ outs = outs0 ++ tailOuts im s1 changed
      ∧ (changed = true ↔
          ((∃ nt, e = Event.msg (RawMessage.notification nt)) ∨ (∃ v, e = Event.vfs v)))
      ∧ (∀ fs, Output.spawnDiagnostics fs ∉ outs0)
      ∧ (∀ msg, Output.notification (OutNotification.internalFeedback msg) ∈ outs0 →
          msg = "library loaded")
      ∧ ((eventReqId e = none ∧ s1.pending = s.pending ∧ ∀ n, countRespTo n outs0 = 0)
        ∨ (∃ rid, eventReqId e = none ∧ rid ∈ s.pending
            ∧ s1.pending = s.pending.erase rid
            ∧ ∀ n, countRespTo n outs0 = if rid = n then 1 else 0)
        ∨ (∃ r : RawRequest, e = Event.msg (RawMessage.request r) ∧ r.id ∉ s.pending
            ∧ s1.pending = insert r.id s.pending ∧ ∀ n, countRespTo n outs0 = 0)
        ∨ (∃ r : RawRequest, e = Event.msg (RawMessage.request r) ∧ s1.pending = s.pending
            ∧ ∀ n, countRespTo n outs0 = if r.id = n then 1 else 0)) := by
  cases e with
  | task t =>
    cases t with
    | respond r =>
      by_cases hr : r.id ∈ s.pending
      · have hstep : step im s (Event.task (ServerTask.respond r)) =
            StepResult.next (tailState { s with pending := s.pending.erase r.id })
              ([Output.response r] ++
                tailOuts im { s with pending := s.pending.erase r.id } false) := by
          simp [step, on_task, hr, stepTail]
        rw [hstep] at h
        injection h with h1 h2
        refine ⟨_, _, _, h1.symm, h2.symm, by simp, by simp, by simp, ?_⟩
        exact Or.inr (Or.inl ⟨r.id, rfl, hr, rfl, fun n => countRespTo_single_resp n r⟩)
      · have hstep : step im s (Event.task (ServerTask.respond r)) =
            StepResult.next (tailState s) ([] ++ tailOuts im s false) := by
          simp [step, on_task, hr, stepTail]
        rw [hstep] at h
        injection h with h1 h2
        exact ⟨_, _, _, h1.symm, h2.symm, by simp, by simp, by simp,
          Or.inl ⟨rfl, rfl, fun n => rfl⟩⟩
    | notify p =>
      have hstep : step im s (Event.task (ServerTask.notify p)) =
          StepResult.next (tailState s)
            ([Output.notification (.taskNotify p)] ++ tailOuts im s false) := by
        simp [step, on_task, stepTail]
      rw [hstep] at h
      injection h with h1 h2
      exact ⟨_, _, _, h1.symm, h2.symm, by simp, by simp, by simp,
        Or.inl ⟨rfl, rfl, fun n => rfl⟩⟩
  | vfs v =>
    have hstep : step im s (Event.vfs v) =
        StepResult.next (tailState s) ([] ++ tailOuts im s true) := by
      simp [step, stepTail]
    rw [hstep] at h
    injection h with h1 h2
    exact ⟨_, _, _, h1.symm, h2.symm,
      ⟨fun _ => Or.inr ⟨v, rfl⟩, fun _ => rfl⟩, by simp, by simp,
      Or.inl ⟨rfl, rfl, fun n => rfl⟩⟩
  | lib rootId =>
    have hstep : step im s (Event.lib rootId) =
        StepResult.next (tailState (addLib s rootId))
          (feedbackOut im "library loaded" ++ tailOuts im (addLib s rootId) false) := by
      simp [step, stepTail]
    rw [hstep] at h
    injection h with h1 h2
    refine ⟨_, _, _, h1.symm, h2.symm, by simp, ?_, ?_,
      Or.inl ⟨rfl, rfl, fun n => countRespTo_feedbackOut n im _⟩⟩
    · intro fs hfs
      cases im <;> simp [feedbackOut] at hfs
    · intro msg hmsg
      exact mem_feedbackOut im _ msg hmsg
  | msg m =>
    cases m with
    | response r =>
      have hstep : step im s (Event.msg (RawMessage.response r)) =
          StepResult.next (tailState s) ([] ++ tailOuts im s false) := by
        simp [step, stepTail]
      rw [hstep] at h
      injection h with h1 h2
      exact ⟨_, _, _, h1.symm, h2.symm, by simp, by simp, by simp,
        Or.inl ⟨rfl, rfl, fun n => rfl⟩⟩
    | request r =>
      by_cases hsh : r.method = "shutdown"
      · simp [step, hsh] at h
      · by_cases hm : r.method ∈ registeredMethods
        · by_cases hid : r.id ∈ s.pending
          · have hstep : step im s (Event.msg (RawMessage.request r)) =
                StepResult.panicked "duplicate request"
                  [Output.spawnHandler r.id r.method] := by
              simp [step, hsh, on_request_spec, hm, hid]
            rw [hstep] at h
            simp at h
          · have hstep : step im s (Event.msg (RawMessage.request r)) =
                StepResult.next (tailState { s with pending := insert r.id s.pending })
                  ([Output.spawnHandler r.id r.method] ++
                    tailOuts im { s with pending := insert r.id s.pending } false) := by
              simp [step, hsh, on_request_spec, hm, hid, stepTail]
            rw [hstep] at h
            injection h with h1 h2
            exact ⟨_, _, _, h1.symm, h2.symm, by simp, by simp, by simp,
              Or.inr (Or.inr (Or.inl ⟨r, rfl, hid, rfl, fun n => rfl⟩))⟩
        · have hstep : step im s (Event.msg (RawMessage.request r)) =
              StepResult.next (tailState s)
                ([Output.response (RawResponse.err r.id methodNotFound "unknown request")]
                  ++ tailOuts im s false) := by
            simp [step, hsh, on_request_spec, hm, stepTail]
          rw [hstep] at h
          injection h with h1 h2
          refine ⟨_, _, _, h1.symm, h2.symm, by simp, by simp, by simp,
            Or.inr (Or.inr (Or.inr ⟨r, rfl, rfl, fun n => ?_⟩))⟩
          simpa [RawResponse.err] using
            countRespTo_single_resp n (RawResponse.err r.id methodNotFound "unknown request")
    | notification nt =>
      cases hno : on_notification s nt with
      | fatal msg => simp [step, hno] at h
      | panicked msg => simp [step, hno] at h
      | ok s1 outs0 =>
        have hstep : step im s (Event.msg (RawMessage.notification nt)) =
            StepResult.next (tailState s1) (outs0 ++ tailOuts im s1 true) := by
          simp [step, hno, stepTail]
        rw [hstep] at h
        injection h with h1 h2
        obtain ⟨hd, hnf, hndg⟩ := on_notification_spec s nt s1 outs0 hno
        refine ⟨_, _, _, h1.symm, h2.symm, by simp, hndg,
          fun msg hmem => absurd hmem (hnf msg), ?_⟩
        cases hd with
        | inl hc =>
          obtain ⟨id, hid, hs1, houts⟩ := hc
          refine Or.inr (Or.inl ⟨id, rfl, hid, by rw [hs1], fun n => ?_⟩)
          rw [houts]
          simpa [RawResponse.err] using
            countRespTo_single_resp n
              (RawResponse.err id requestCancelled "canceled by client")
        | inr hc => exact Or.inl ⟨rfl, hc.1, hc.2⟩

theorem step_shapes (im : Bool) (s : ServerState) (e : Event) :
    (∃ s' outs, step im s e = .next s' outs)
    ∨ (∃ r : RawRequest, e = Event.msg (RawMessage.request r)
        ∧ step im s e = .exitOk [Output.response (RawResponse.succeed r.id)])
    ∨ (∃ msg, step im s e = .exitErr msg [])
    ∨ (∃ msg outs, step im s e = .panicked msg outs ∧ ∀ n, countRespTo n outs = 0) := by
  cases e with
  | task t => exact Or.inl ⟨_, _, rfl⟩
  | vfs v => exact Or.inl ⟨_, _, rfl⟩
  | lib rootId => exact Or.inl ⟨_, _, rfl⟩
  | msg m =>
    cases m with
    | response r => exact Or.inl ⟨_, _, rfl⟩
    | request r =>
      by_cases hsh : r.method = "shutdown"
      · refine Or.inr (Or.inl ⟨r, rfl, ?_⟩)
        simp [step, hsh]
      · by_cases hm : r.method ∈ registeredMethods
        · by_cases hid : r.id ∈ s.pending
          · refine Or.inr (Or.inr (Or.inr ⟨"duplicate request",
              [Output.spawnHandler r.id r.method], ?_, fun n => rfl⟩))
            simp [step, hsh, on_request_spec, hm, hid]
          · have hstep : step im s (Event.msg (RawMessage.request r)) =
                StepResult.next (tailState { s with pending := insert r.id s.pending })
                  ([Output.spawnHandler r.id r.method] ++
                    tailOuts im { s with pending := insert r.id s.pending } false) := by
              simp [step, hsh, on_request_spec, hm, hid, stepTail]
            exact Or.inl ⟨_, _, hstep⟩
        · have hstep : step im s (Event.msg (RawMessage.request r)) =
              StepResult.next (tailState s)
                ([Output.response (RawResponse.err r.id methodNotFound "unknown request")]
                  ++ tailOuts im s false) := by
            simp [step, hsh, on_request_spec, hm, stepTail]
          exact Or.inl ⟨_, _, hstep⟩
    | notification nt =>
      cases hno : on_notification s nt with
      | ok s1 outs0 =>
        have hstep : step im s (Event.msg (RawMessage.notification nt)) =
            StepResult.next (tailState s1) (outs0 ++ tailOuts im s1 true) := by
          simp [step, hno, stepTail]
        exact Or.inl ⟨_, _, hstep⟩
      | fatal msg =>
        refine Or.inr (Or.inr (Or.inl ⟨msg, ?_⟩))
        simp [step, hno]
      | panicked msg =>
        refine Or.inr (Or.inr (Or.inr ⟨msg, [], ?_, fun n => rfl⟩))
        simp [step, hno]

end Loop

open Loop

/-- A vfs with no known files, for concrete runs. -/
def demoVfs : VfsState := { pathToId := [], overlays := [] }

/-- A fresh server state with two roots still to scan. -/
def cexState : ServerState :=
  { pending := ∅, subs := ∅, vfs := demoVfs, rootsToScan := 2, pendingLibs := [] }

/-- A server state with one root still to scan. -/
def c6State : ServerState :=
  { pending := ∅, subs := ∅, vfs := demoVfs, rootsToScan := 1, pendingLibs := [] }

/-- A server state whose workspace has finished loading. -/
def c6ZeroState : ServerState :=
  { pending := ∅, subs := ∅, vfs := demoVfs, rootsToScan := 0, pendingLibs := [] }

/-- A server state with request 3 pending. -/
def c2State : ServerState :=
  { pending := {3}, subs := ∅, vfs := demoVfs, rootsToScan := 0, pendingLibs := [] }

/-- C10: a cancel notification whose id is a string makes the notification
handler panic (aborting the main loop) instead of ignoring the notification
or reporting a recoverable error; only numeric ids are handled. -/
theorem c10_string_cancel_panics (im : Bool) (s : ServerState) (x : String) :
    step im s (.msg (.notification (.cancel (.str x)))) =
      .panicked "string id not supported" []
  ∧ on_notification s (.cancel (.str x)) =
      NotifOutcome.panicked "string id not supported" :=
  ⟨rfl, rfl⟩

/-- C2: on a cancel notification with numeric id `n`, if `n` is pending it is
removed and a single request-cancelled error response for `n` is sent
immediately; if `n` is not pending, nothing is sent and the state is
unchanged. -/
theorem c2_cancel (s : ServerState) (n : Nat) :
    (n ∈ s.pending →
      on_notification s (.cancel (.num n)) =
        .ok { s with pending := s.pending.erase n }
          [Output.response (RawResponse.err n requestCancelled "canceled by client")])
  ∧ (n ∉ s.pending →
      on_notification s (.cancel (.num n)) = .ok s []) := by
  constructor <;> intro h <;> simp [on_notification, h]

theorem c2_witness :
    on_notification c2State (.cancel (.num 3)) =
      .ok { c2State with pending := c2State.pending.erase 3 }
        [Output.response (RawResponse.err 3 requestCancelled "canceled by client")]
  ∧ on_notification c2State (.cancel (.num 9)) = .ok c2State [] :=
  ⟨(c2_cancel c2State 3).1 (by decide), (c2_cancel c2State 9).2 (by decide)⟩

/-- C4 (amended): a malformed client notification (a didOpen/didChange/didClose
URI that is not a valid file path, or a didChange with an empty
content_changes list) makes `on_notification` return an error, which
propagates through `main_loop_inner`'s `?` and terminates the main loop; only
unrecognized notification methods are merely logged, after which the loop
continues. -/
theorem c4_amended (im : Bool) (s : ServerState) (text : String) :
    (∀ u : Uri, u.toFilePath = none →
        step im s (.msg (.notification (.didOpen u text))) = .exitErr "invalid uri" []
      ∧ step im s (.msg (.notification (.didChange u [text]))) = .exitErr "invalid uri" []
      ∧ step im s (.msg (.notification (.didClose u))) = .exitErr "invalid uri" [])
  ∧ (∀ p : FsPath,
      step im s (.msg (.notification (.didChange (Uri.file p) []))) =
        .exitErr "empty changes" [])
  ∧ (∀ mth : String,
      step im s (.msg (.notification (.other mth))) =
        .next (tailState s) (tailOuts im s true)) := by
  refine ⟨fun u hu => ⟨?_, ?_, ?_⟩, fun p => ?_, fun mth => ?_⟩
  · simp [step, on_notification, hu]
  · simp [step, on_notification, hu]
  · simp [step, on_notification, hu]
  · simp [step, on_notification, Uri.toFilePath]
  · simp [step, on_notification, stepTail]

/-- C4 counterexample: a didOpen whose URI is not a file path terminates the
main loop with an error, where the claim says such a notification never
terminates the loop. -/
theorem c4_counterexample :
    step true cexState
        (.msg (.notification (.didOpen (Uri.nonFile "untitled:1") "x"))) =
      .exitErr "invalid uri" [] := rfl

theorem c4_witness :
    step true cexState (.msg (.notification (.didChange (Uri.nonFile "u") ["x"]))) =
      .exitErr "invalid uri" []
  ∧ step true cexState (.msg (.notification (.didChange (Uri.file [PathComp.rootDir]) []))) =
      .exitErr "empty changes" []
  ∧ step true cexState (.msg (.notification (.other "workspace/didChangeWatchedFiles"))) =
      .next (tailState cexState) (tailOuts true cexState true) :=
  ⟨((c4_amended true cexState "x").1 (Uri.nonFile "u") rfl).2.1,
   (c4_amended true cexState "x").2.1 [PathComp.rootDir],
   (c4_amended true cexState "x").2.2 "workspace/didChangeWatchedFiles"⟩

/-- C5 (amended): a continuing loop iteration spawns a diagnostics task
exactly after client notifications (including cancel) and after filesystem
events — not after library completions, worker tasks, requests or stray
responses. -/
theorem c5_amended (im : Bool) (s : ServerState) (e : Event) (s' : ServerState)
    (outs : List Output) (h : step im s e = .next s' outs) :
    (∃ fs, Output.spawnDiagnostics fs ∈ outs) ↔
      ((∃ nt, e = Event.msg (RawMessage.notification nt)) ∨ (∃ v, e = Event.vfs v)) := by
  obtain ⟨s1, outs0, changed, _, houts, hch, hnodiag, _, _⟩ :=
    step_next_cases im s e s' outs h
  subst houts
  rw [← hch]
  constructor
  · rintro ⟨fs, hmem⟩
    rcases List.mem_append.mp hmem with hm | hm
    · exact absurd hm (hnodiag fs)
    · exact (spawnDiag_mem_tailOuts im s1 changed).mp ⟨fs, hm⟩
  · intro hc
    obtain ⟨fs, hm⟩ := (spawnDiag_mem_tailOuts im s1 changed).mpr hc
    exact ⟨fs, List.mem_append.mpr (Or.inr hm)⟩

/-- C5 counterexample: a cancel notification for an unknown id does spawn a
diagnostics task (the claim says every notification except cancel), and a
library completion spawns none (the claim says it does). -/
theorem c5_counterexample :
    step true cexState (.msg (.notification (.cancel (.num 5)))) =
      .next cexState [Output.spawnDiagnostics (∅ : Finset Nat)]
  ∧ step true cexState (.lib 0) =
      .next { cexState with rootsToScan := 1 }
        [Output.notification (.internalFeedback "library loaded")] := by
  constructor <;> decide

theorem c5_witness :
    (∃ fs, Output.spawnDiagnostics fs ∈ [Output.spawnDiagnostics (∅ : Finset Nat)]) ↔
      ((∃ nt, Event.msg (RawMessage.notification (Notification.cancel (NumberOrString.num 5)))
          = Event.msg (RawMessage.notification nt))
        ∨ (∃ v, Event.msg (RawMessage.notification (Notification.cancel (NumberOrString.num 5)))
          = Event.vfs v)) :=
  c5_amended true cexState
    (Event.msg (RawMessage.notification (Notification.cancel (NumberOrString.num 5))))
    cexState [Output.spawnDiagnostics ∅] (by decide)

/-- C6 (amended): in internal mode the *workspace loaded* feedback is emitted
at the end of every continuing loop iteration whose resulting state has zero
outstanding roots — so it is first emitted right after the last *library
loaded* feedback, but it is then emitted again on every subsequent event, not
exactly once. -/
theorem c6_amended (im : Bool) (s : ServerState) (e : Event) (s' : ServerState)
    (outs : List Output) (h : step im s e = .next s' outs) :
    Output.notification (.internalFeedback "workspace loaded") ∈ outs ↔
      (im = true ∧ s'.rootsToScan = 0) := by
  obtain ⟨s1, outs0, changed, hs', houts, _, _, hfb, _⟩ :=
    step_next_cases im s e s' outs h
  subst houts
  subst hs'
  constructor
  · intro hm
    rcases List.mem_append.mp hm with hm | hm
    · exact absurd (hfb _ hm) (by decide)
    · exact (wsFeedback_mem_tailOuts im s1 changed).mp hm
  · intro hc
    exact List.mem_append.mpr
      (Or.inr ((wsFeedback_mem_tailOuts im s1 changed).mpr hc))

/-- C6 counterexample: once the outstanding-root count is zero, the
*workspace loaded* feedback is re-emitted at every later iteration — two
events after the last library completion yield two emissions, where the claim
says it is never emitted a second time. -/
theorem c6_counterexample :
    countFeedback "workspace loaded"
      (run true c6State [Event.lib 0, Event.vfs VfsTask.mkTask]).2 = 2 := by
  decide

theorem c6_witness :
    (Output.notification (OutNotification.internalFeedback "workspace loaded") ∈
      ([Output.notification (OutNotification.internalFeedback "workspace loaded"),
        Output.spawnDiagnostics (∅ : Finset Nat)] : List Output)) ↔
      (true = true ∧ c6ZeroState.rootsToScan = 0) :=
  c6_amended true c6ZeroState (Event.vfs VfsTask.mkTask) c6ZeroState
    [Output.notification (OutNotification.internalFeedback "workspace loaded"),
     Output.spawnDiagnostics ∅] (by decide)

/-- C3 counterexample: the shutdown request is decoded by no registered
dispatcher kind, yet it is answered with a success response (and the loop
exits) rather than a method-not-found error, because `handle_shutdown`
intercepts it before the dispatcher runs. -/
theorem c3_counterexample :
    ("shutdown" ∉ registeredMethods)
  ∧ step true cexState (.msg (.request ⟨9, "shutdown"⟩)) =
      .exitOk [Output.response (RawResponse.succeed 9)] :=
  ⟨by decide, rfl⟩

/-- C3 (amended): for every incoming client request other than shutdown, if
no registered kind decodes it, a method-not-found error response carrying its
id is sent and the pending set is untouched; if some kind decodes it, the id
is inserted into the pending set before the dispatcher returns (with no
response emitted yet), so a later cancel can suppress its response. -/
theorem c3_amended (im : Bool) (s : ServerState) (r : RawRequest)
    (hsh : r.method ≠ "shutdown") :
    (r.method ∉ registeredMethods →
      step im s (.msg (.request r)) =
        .next (tailState s)
          (Output.response (RawResponse.err r.id methodNotFound "unknown request")
            :: tailOuts im s false)
      ∧ (tailState s).pending = s.pending)
  ∧ (r.method ∈ registeredMethods → r.id ∉ s.pending →
      step im s (.msg (.request r)) =
        .next (tailState { s with pending := insert r.id s.pending })
          (Output.spawnHandler r.id r.method
            :: tailOuts im { s with pending := insert r.id s.pending } false)
      ∧ (tailState { s with pending := insert r.id s.pending }).pending
          = insert r.id s.pending
      ∧ countRespTo r.id
          (Output.spawnHandler r.id r.method
            :: tailOuts im { s with pending := insert r.id s.pending } false) = 0) := by
  constructor
  · intro hm
    refine ⟨?_, rfl⟩
    simp [step, hsh, on_request_spec, hm, stepTail]
  · intro hm hid
    refine ⟨?_, rfl, ?_⟩
    · simp [step, hsh, on_request_spec, hm, hid, stepTail]
    · have h2 : countRespTo r.id
          (Output.spawnHandler r.id r.method
            :: tailOuts im { s with pending := insert r.id s.pending } false) =
          countRespTo r.id
            (tailOuts im { s with pending := insert r.id s.pending } false) := by
        simp [countRespTo, List.filter_cons]
      rw [h2, countRespTo_tailOuts]

theorem c3_witness :
    (step true cexState (.msg (.request ⟨9, "m/unknownMethod"⟩)) =
        .next (tailState cexState)
          (Output.response (RawResponse.err 9 methodNotFound "unknown request")
            :: tailOuts true cexState false)
      ∧ (tailState cexState).pending = cexState.pending)
  ∧ (step true cexState (.msg (.request ⟨4, "m/syntaxTree"⟩)) =
        .next (tailState { cexState with pending := insert 4 cexState.pending })
          (Output.spawnHandler 4 "m/syntaxTree"
            :: tailOuts true { cexState with pending := insert 4 cexState.pending } false)
      ∧ (tailState { cexState with pending := insert 4 cexState.pending }).pending
          = insert 4 cexState.pending
      ∧ countRespTo 4
          (Output.spawnHandler 4 "m/syntaxTree"
            :: tailOuts true { cexState with pending := insert 4 cexState.pending } false)
          = 0) :=
  ⟨(c3_amended true cexState ⟨9, "m/unknownMethod"⟩ (by decide)).1 (by decide),
   (c3_amended true cexState ⟨4, "m/syntaxTree"⟩ (by decide)).2 (by decide) (by decide)⟩

namespace Loop

theorem requestIds_cons_none (e : Event) (es : List Event) (h : eventReqId e = none) :
    requestIds (e :: es) = requestIds es := by
  simp [requestIds, List.filterMap_cons, h]

theorem requestIds_cons_req (r : RawRequest) (es : List Event) :
    requestIds (Event.msg (RawMessage.request r) :: es) = r.id :: requestIds es := by
  simp [requestIds, List.filterMap_cons, eventReqId]

theorem ite_one_zero_mono {P Q : Prop} [Decidable P] [Decidable Q] (h : P → Q) :
    (if P then (1 : Nat) else 0) ≤ (if Q then 1 else 0) := by
  by_cases hp : P
  · rw [if_pos hp, if_pos (h hp)]
  · rw [if_neg hp]
    exact Nat.zero_le _

/-- The trace invariant behind at-most-once responses: along any run whose
remaining client requests have pairwise distinct ids, never re-using an id
still pending, at most one response per id is emitted — zero unless the id is
pending or about to be requested. -/
theorem run_count_bound (im : Bool) :
    ∀ (evs : List Event) (s : ServerState),
      (requestIds evs).Nodup →
      (∀ m ∈ s.pending, m ∉ requestIds evs) →
      ∀ n, countRespTo n (run im s evs).2 ≤
        (if n ∈ s.pending ∨ n ∈ requestIds evs then 1 else 0) := by
  intro evs
  induction evs with
  | nil =>
    intro s _ _ n
    exact Nat.zero_le _
  | cons e es ih =>
    intro s hnd hsub n
    cases hst : step im s e with
    | next s2 o2 =>
      have hrun : run im s (e :: es) = ((run im s2 es).1, o2 ++ (run im s2 es).2) := by
        simp [run, hst]
      rw [hrun]
      obtain ⟨s1, outs0, changed, hs', houts, _, _, _, hd⟩ :=
        step_next_cases im s e s2 o2 hst
      subst hs'
      subst houts
      rw [countRespTo_append, countRespTo_append, countRespTo_tailOuts]
      have hptail : (tailState s1).pending = s1.pending := rfl
      rcases hd with ⟨hnone, hpend, hcnt⟩ | ⟨rid, hnone, hmem, hpend, hcnt⟩ |
        ⟨r, herq, hid, hpend, hcnt⟩ | ⟨r, herq, hpend, hcnt⟩
      · rw [hcnt n, requestIds_cons_none e es hnone] at *
        have hsub' : ∀ m ∈ (tailState s1).pending, m ∉ requestIds es := by
          intro m hm
          rw [hptail, hpend] at hm
          exact hsub m hm
        have hb := ih (tailState s1) hnd hsub' n
        have himp : (n ∈ (tailState s1).pending ∨ n ∈ requestIds es) →
            (n ∈ s.pending ∨ n ∈ requestIds es) := by
          rw [hptail, hpend]
          exact id
        simpa using le_trans hb (ite_one_zero_mono himp)
      · rw [hcnt n, requestIds_cons_none e es hnone] at *
        have hsub' : ∀ m ∈ (tailState s1).pending, m ∉ requestIds es := by
          intro m hm
          rw [hptail, hpend] at hm
          exact hsub m (Finset.mem_of_mem_erase hm)
        have hb := ih (tailState s1) hnd hsub' n
        by_cases hn : rid = n
        · subst hn
          have hcond : ¬(rid ∈ (tailState s1).pending ∨ rid ∈ requestIds es) := by
            rintro (hc | hc)
            · rw [hptail, hpend] at hc
              exact absurd hc (Finset.not_mem_erase rid s.pending)
            · exact hsub rid hmem hc
          rw [if_neg hcond] at hb
          rw [if_pos rfl, if_pos (Or.inl hmem)]
          omega
        · rw [if_neg hn]
          have himp : (n ∈ (tailState s1).pending ∨ n ∈ requestIds es) →
              (n ∈ s.pending ∨ n ∈ requestIds es) := by
            rw [hptail, hpend]
            rintro (hc | hc)
            · exact Or.inl (Finset.mem_of_mem_erase hc)
            · exact Or.inr hc
          simpa using le_trans hb (ite_one_zero_mono himp)
      · subst herq
        rw [hcnt n]
        rw [requestIds_cons_req r es] at hnd hsub ⊢
        obtain ⟨hhead, htail⟩ := List.nodup_cons.mp hnd
        have hsub' : ∀ m ∈ (tailState s1).pending, m ∉ requestIds es := by
          intro m hm
          rw [hptail, hpend] at hm
          rcases Finset.mem_insert.mp hm with hc | hc
          · rw [hc]
            exact hhead
          · exact fun hin => hsub m hc (List.mem_cons_of_mem _ hin)
        have hb := ih (tailState s1) htail hsub' n
        have himp : (n ∈ (tailState s1).pending ∨ n ∈ requestIds es) →
            (n ∈ s.pending ∨ n ∈ r.id :: requestIds es) := by
          rw [hptail, hpend]
          rintro (hc | hc)
          · rcases Finset.mem_insert.mp hc with h1 | h1
            · exact Or.inr (h1 ▸ List.mem_cons_self r.id _)
            · exact Or.inl h1
          · exact Or.inr (List.mem_cons_of_mem _ hc)
        simpa using le_trans hb (ite_one_zero_mono himp)
      · subst herq
        rw [hcnt n]
        rw [requestIds_cons_req r es] at hnd hsub ⊢
        obtain ⟨hhead, htail⟩ := List.nodup_cons.mp hnd
        have hridnp : r.id ∉ s.pending := fun hin =>
          hsub r.id hin (List.mem_cons_self _ _)
        have hsub' : ∀ m ∈ (tailState s1).pending, m ∉ requestIds es := by
          intro m hm
          rw [hptail, hpend] at hm
          exact fun hin => hsub m hm (List.mem_cons_of_mem _ hin)
        have hb := ih (tailState s1) htail hsub' n
        by_cases hn : r.id = n
        · subst hn
          have hcond : ¬(r.id ∈ (tailState s1).pending ∨ r.id ∈ requestIds es) := by
            rintro (hc | hc)
            · rw [hptail, hpend] at hc
              exact hridnp hc
            · exact hhead hc
          rw [if_neg hcond] at hb
          rw [if_pos rfl, if_pos (Or.inr (List.mem_cons_self r.id _))]
          omega
        · rw [if_neg hn]
          have himp : (n ∈ (tailState s1).pending ∨ n ∈ requestIds es) →
              (n ∈ s.pending ∨ n ∈ r.id :: requestIds es) := by
            rw [hptail, hpend]
            rintro (hc | hc)
            · exact Or.inl hc
            · exact Or.inr (List.mem_cons_of_mem _ hc)
          simpa using le_trans hb (ite_one_zero_mono himp)
    | exitOk o2 =>
      have hrun : run im s (e :: es) = (.exitedOk, o2) := by simp [run, hst]
      rw [hrun]
      rcases step_shapes im s e with ⟨sx, ox, hsh⟩ | ⟨r, herq, hsh⟩ | ⟨mx, hsh⟩ |
        ⟨mx, ox, hsh, _⟩
      · rw [hst] at hsh
        simp at hsh
      · have h3 := hst.symm.trans hsh
        injection h3 with h2
        subst h2
        subst herq
        rw [requestIds_cons_req r es]
        show countRespTo n [Output.response (RawResponse.succeed r.id)] ≤ _
        rw [countRespTo_single_resp n (RawResponse.succeed r.id),
          show (RawResponse.succeed r.id).id = r.id from rfl]
        by_cases hn : r.id = n
        · rw [if_pos hn, if_pos (Or.inr (hn ▸ List.mem_cons_self r.id _))]
        · rw [if_neg hn]
          exact Nat.zero_le _
      · rw [hst] at hsh
        simp at hsh
      · rw [hst] at hsh
        simp at hsh
    | exitErr mx o2 =>
      have hrun : run im s (e :: es) = (.exitedErr mx, o2) := by simp [run, hst]
      rw [hrun]
      rcases step_shapes im s e with ⟨sx, ox, hsh⟩ | ⟨r, herq, hsh⟩ | ⟨my, hsh⟩ |
        ⟨my, ox, hsh, _⟩
      · rw [hst] at hsh
        simp at hsh
      · rw [hst] at hsh
        simp at hsh
      · have h3 := hst.symm.trans hsh
        injection h3 with h1 h2
        rw [h2]
        exact Nat.zero_le _
      · rw [hst] at hsh
        simp at hsh
    | panicked mx o2 =>
      have hrun : run im s (e :: es) = (.panickedWith mx, o2) := by simp [run, hst]
      rw [hrun]
      rcases step_shapes im s e with ⟨sx, ox, hsh⟩ | ⟨r, herq, hsh⟩ | ⟨my, hsh⟩ |
        ⟨my, ox, hsh, hcnt⟩
      · rw [hst] at hsh
        simp at hsh
      · rw [hst] at hsh
        simp at hsh
      · rw [hst] at hsh
        simp at hsh
      · have h3 := hst.symm.trans hsh
        injection h3 with h1 h2
        rw [h2]
        exact le_trans (Nat.le_of_eq (hcnt n)) (Nat.zero_le _)

end Loop

/-- C1: a worker `Respond(resp)` task is forwarded to the client iff `resp.id`
is still in the pending set when the task is processed (and the id is removed
at that moment), and is silently discarded otherwise; consequently, along any
run from the initial (empty-pending) state whose client requests carry
pairwise distinct ids, at most one response is ever sent for any id. -/
theorem c1_at_most_one_response :
    (∀ (p : Finset Nat) (r : RawResponse),
        (r.id ∈ p → on_task (.respond r) p = (p.erase r.id, [Output.response r]))
      ∧ (r.id ∉ p → on_task (.respond r) p = (p, [])))
  ∧ (∀ (im : Bool) (s : ServerState) (evs : List Event),
      s.pending = ∅ → (requestIds evs).Nodup →
      ∀ n, countRespTo n (run im s evs).2 ≤ 1) := by
  constructor
  · intro p r
    constructor <;> intro h <;> simp [on_task, h]
  · intro im s evs hp hnd n
    have hsub : ∀ m ∈ s.pending, m ∉ requestIds evs := by
      rw [hp]
      intro m hm
      simp at hm
    refine le_trans (run_count_bound im evs s hnd hsub n) ?_
    split <;> omega

def demoEvents : List Event :=
  [Event.msg (RawMessage.request ⟨7, "m/syntaxTree"⟩),
   Event.task (ServerTask.respond ⟨7, none, ""⟩),
   Event.task (ServerTask.respond ⟨7, none, ""⟩)]

theorem c1_witness :
    on_task (ServerTask.respond ⟨3, none, ""⟩) ({3} : Finset Nat) =
      (({3} : Finset Nat).erase 3, [Output.response ⟨3, none, ""⟩])
  ∧ countRespTo 7 (run true cexState demoEvents).2 ≤ 1 :=
  ⟨(c1_at_most_one_response.1 {3} ⟨3, none, ""⟩).1 (by decide),
   c1_at_most_one_response.2 true cexState demoEvents rfl (by decide) 7⟩
